import Mathlib

/-!
Verification development for the `front-util/router` hash-navigation library.

The embedding covers:
* the pure helper module (`src/helpers`, the iteration with `isRouteMatch`,
  `getRouteItem`, `getParamsFromUrl`, `parseQueryParams`);
* the signals-based session-history core `createHashNavigation`
  (the iteration with the `subscribe` method), modelled as a pure state
  machine with explicit fresh-identifier generation standing in for
  `generateRandomId` and for JavaScript object identity;
* the router facade `createHashRouter`/`create` composed with the
  event-listener-based `createHashNavigation` iteration it imports.

Modelling conventions:
* A browser URL is a pair of a base (everything before `#`) and a fragment
  (everything after `#`, without the `#`).  `new URL('#' + f, href).href`
  keeps the base and replaces the fragment by `f`.  Fragments in the claims
  are plain ASCII, so percent-encoding performed by the URL constructor is
  not modelled.  String identity of `href`s corresponds to structural
  equality of these pairs.
* JavaScript state slots hold `undefined`, `null` or a JSON object; objects
  are modelled as association lists and `JSON.stringify` comparison as
  structural equality.
* `Math.random` based ids and JavaScript object identities are drawn from a
  counter threaded through the state (`gen`); two entries are the same
  object exactly when their `objId` coincides, which is what the
  subscription effect's `previousCallEntry !== entry` test observes.
-/

namespace HashNav

/-! ## JavaScript string primitives used by the source -/

/-- `split` on a single-character separator, like JS `String.prototype.split`
(`''.split(c) = ['']`, separators at the ends produce empty chunks). -/
def splitCharList (c : Char) : List Char → List (List Char)
  | [] => [[]]
  | x :: xs =>
    if x = c then [] :: splitCharList c xs
    else
      match splitCharList c xs with
      | [] => [[x]]
      | h :: t => (x :: h) :: t

/-- JS `s.split(c)` for a one-character separator. -/
def jsSplit (s : String) (c : Char) : List String :=
  (splitCharList c s.data).map (fun l => ⟨l⟩)

/-- Remove the first occurrence of the character `c`, i.e. the action of JS
`s.replace(c, '')` for a one-character pattern. -/
def removeFirstCharList (c : Char) : List Char → List Char
  | [] => []
  | x :: xs => if x = c then xs else x :: removeFirstCharList c xs

/-- JS `s.replace(c, '')` for a one-character pattern string. -/
def jsReplaceFirst (s : String) (c : Char) : String :=
  ⟨removeFirstCharList c s.data⟩

/-- JS `s.slice(1)` (the strings it is applied to are ASCII, so dropping one
UTF-16 unit is dropping one character). -/
def jsSlice1 (s : String) : String := ⟨s.data.drop 1⟩

/-- JS `s.substring(1)` / `s.startsWith(c)` companions at the char level. -/
def jsStartsWithChar (s : String) (c : Char) : Bool :=
  match s.data with
  | [] => false
  | x :: _ => x = c

/-- JS `array.includes(x)` for string arrays. -/
def jsIncludes (l : List String) (x : String) : Bool :=
  l.any (fun r => r = x)

/-- Value of a hexadecimal digit, if any. -/
def hexDigitVal (c : Char) : Option Nat :=
  if '0' ≤ c ∧ c ≤ '9' then some (c.toNat - '0'.toNat)
  else if 'a' ≤ c ∧ c ≤ 'f' then some (c.toNat - 'a'.toNat + 10)
  else if 'A' ≤ c ∧ c ≤ 'F' then some (c.toNat - 'A'.toNat + 10)
  else none

/-- Single-byte percent-decoding: the ASCII fragment of JS
`decodeURIComponent` (the real builtin additionally performs UTF-8
multi-byte decoding and throws `URIError` on malformed input; the query
strings in the specification examples are plain ASCII). -/
def percentDecodeList : List Char → List Char
  | [] => []
  | '%' :: a :: b :: rest =>
    match hexDigitVal a, hexDigitVal b with
    | some x, some y => Char.ofNat (16 * x + y) :: percentDecodeList rest
    | _, _ => '%' :: percentDecodeList (a :: b :: rest)
  | c :: rest => c :: percentDecodeList rest

/-- JS `decodeURIComponent`, restricted as described above. -/
def jsDecodeURIComponent (s : String) : String :=
  ⟨percentDecodeList s.data⟩

/-- JS `array.findIndex`, returning `none` instead of `-1`. -/
def jsFindIndex {α : Type} (p : α → Bool) : List α → Option Nat
  | [] => none
  | x :: xs => if p x then some 0 else (jsFindIndex p xs).map (· + 1)

/-! ## URLs and state values -/

/-- A browser location: base (scheme/host/path/query before `#`) and
fragment (after `#`, without the `#`).  The base never contains `#`. -/
structure Url where
  base : String
  frag : String
deriving DecidableEq, Repr

/-- A JSON-ish object, as stored in navigation state slots. -/
abbrev StateObj := List (String × String)

/-- A JavaScript value sitting in a state slot: `undefined`, `null` or an
object.  Equality of `JVal` models `JSON.stringify` comparison (and the
strict comparison of the `undefined`/`null` cases). -/
inductive JVal where
  | undef : JVal
  | null : JVal
  | obj : StateObj → JVal
deriving DecidableEq, Repr

/-- JS truthiness of an optional state argument (`options?.state && …`):
every object, including `{}`, is truthy; absent is falsy. -/
def optStateToJVal : Option StateObj → JVal
  | some o => JVal.obj o
  | none => JVal.undef

/-- `options?.state || null`, the value handed to `history.pushState`. -/
def optStateOrNull : Option StateObj → JVal
  | some o => JVal.obj o
  | none => JVal.null

/-- The JS `location.hash` property: `''` when the fragment is empty,
otherwise `'#' + fragment`. -/
def jsUrlHashProp (u : Url) : String :=
  if u.frag = "" then "" else "#" ++ u.frag

/-- Assignment to `location.hash`: a leading `'#'` of the assigned string is
stripped, and the fragment is replaced. -/
def setLocationHash (u : Url) (v : String) : Url :=
  { u with frag := if jsStartsWithChar v '#' then jsSlice1 v else v }

/-! ## `src/helpers` (the `part_002` iteration) -/

/-- `getHash`: `new URL(url).hash.slice(1).replace('/', '') || '/'`.
Note the source removes the *first* `'/'` of the fragment, wherever it
occurs, not only a leading delimiter. -/
def getHash (u : Url) : String :=
  let s := jsSlice1 (jsUrlHashProp u)
  let r := jsReplaceFirst s '/'
  if r = "" then "/" else r

/-- `createHash`: prepend the `'/'` delimiter. -/
def createHash (hash : String) : String := "/" ++ hash

/-- One history entry.  `objId` models JavaScript object identity (see the
header); `key`/`id` model the `generateRandomId()` results.  The named
`helpers.ts` iteration exposes `getHash()` as a method closed over the
*creation* URL; since object spreads copy the closure unchanged, a `hash`
field computed at creation time models both iterations. -/
structure Entry where
  url : Url
  key : Nat
  id : Nat
  index : Nat
  sameDocument : Bool
  state : JVal
  hash : String
  objId : Nat
deriving DecidableEq, Repr

/-- `createHistoryEntry` of the `part_002` helpers: the `state` parameter
defaults to `{}` when the argument is `undefined`.  Returns the entry and
the advanced id counter. -/
def createHistoryEntry (g : Nat) (url : Url) (st : JVal) (index : Nat) :
    Entry × Nat :=
  (⟨url, g, g + 1, index, true,
    (if st = JVal.undef then JVal.obj [] else st), getHash url, g + 2⟩,
   g + 3)

/-- `createHistoryEntry` of the named `helpers.ts` iteration: no default is
applied to `state` (it may remain `undefined`). -/
def createHistoryEntryN (g : Nat) (url : Url) (st : JVal) (index : Nat) :
    Entry × Nat :=
  (⟨url, g, g + 1, index, true, st, getHash url, g + 2⟩, g + 3)

/-- A pattern segment of the shape `:name` (a colon followed by at least one
word character), which the regex construction turns into `([^/]+)`. -/
def segIsParam (s : String) : Bool :=
  match s.data with
  | ':' :: c :: cs => (c :: cs).all (fun d => d.isAlphanum ∨ d = '_')
  | _ => false

/-- One segment comparison of `isRouteMatch`: a `:name` segment matches any
non-empty concrete segment, every other segment must match literally.  This
is the action of the source's regex
`^pattern.replace(/:\w+/g, '([^/]+)')$` on patterns whose parameter markers
span whole segments and whose literal segments contain no regex
metacharacters (all patterns supplied by this repository are of this
shape). -/
def segMatch (p s : String) : Bool :=
  if segIsParam p then s ≠ "" else p = s

/-- `isRouteMatch`: equal segment counts, then segment-wise comparison. -/
def isRouteMatch (pattern hash : String) : Bool :=
  let ps := jsSplit pattern '/'
  let hs := jsSplit hash '/'
  ps.length = hs.length ∧ (ps.zip hs).all (fun q => segMatch q.1 q.2)

/-- `getRouteMap`: builds `{name: name}` from the route names.  JS object
keys iterate in insertion order for non-integer-like keys, so an insertion
ordered association list is faithful for route-pattern keys. -/
def getRouteMap (routeNames : List String) : List (String × String) :=
  routeNames.map (fun n => (n, n))

/-- `getRouteItem`: a `reduce` over the keys that *reassigns* the
accumulator on every matching pattern — so the last matching key in
iteration order determines the result. -/
def getRouteItem {α : Type} (map : List (String × α)) (hash : String) :
    Option α :=
  map.foldl (fun acc kv => if isRouteMatch kv.1 hash then some kv.2 else acc)
    none

/-- `getParamsFromUrl`: collect `{name: value}` for each `:name` pattern
segment, stripping a trailing query string from the value. -/
def getParamsFromUrl (pattern hash : String) : List (String × String) :=
  let ps := jsSplit pattern '/'
  let us := jsSplit hash '/'
  if ps.length ≠ us.length then []
  else
    (ps.zip us).foldl
      (fun acc q =>
        if jsStartsWithChar q.1 ':' then
          acc ++ [(jsSlice1 q.1, ((jsSplit q.2 '?').headD ""))]
        else acc)
      []

/-- `parseQueryParams`: take the chunk after the first `'?'`, split it on
`'&'` and `'='`; a missing or empty value yields `''`, other values are
percent-decoded. -/
def parseQueryParams (urlPart : String) : List (String × String) :=
  match (jsSplit urlPart '?')[1]? with
  | none => []
  | some qs =>
    if qs = "" then []
    else
      (jsSplit qs '&').foldl
        (fun acc param =>
          let parts := jsSplit param '='
          let key := parts.headD ""
          let value :=
            match parts[1]? with
            | some v => if v = "" then "" else jsDecodeURIComponent v
            | none => ""
          acc ++ [(key, value)])
        []

/-! ## The signals-based session-history core (`part_006` iteration)

State of one `createHashNavigation()` instance, together with the pieces of
the host it interacts with: `loc` is `window.location`, `hostState` is
`window.history.state`, and `hostCalls` logs every `window.history` method
invocation in order.  `curURL` is the `_currentURL` signal, `entries` is
`_entries`, `idx` is `_currentIndex`.  `gen` is the fresh-identifier
counter (see the header). -/

/-- A call into the host history mechanism. -/
inductive HostCall where
  | push : JVal → Url → HostCall
  | replace : JVal → Url → HostCall
  | go : Int → HostCall
  | goBack : HostCall
  | goForward : HostCall
deriving DecidableEq, Repr

structure NavSt where
  loc : Url
  hostState : JVal
  curURL : Url
  entries : List Entry
  idx : Nat
  gen : Nat
  hostCalls : List HostCall
deriving DecidableEq, Repr

/-- The `currentEntry` computed signal: `_entries.value[_currentIndex.value]`. -/
def getCurrent (s : NavSt) : Option Entry := s.entries[s.idx]?

/-- Object identity of the current entry — what the subscription effect's
`previousCallEntry !== entry` comparison observes.  A subscriber callback
fires during a step exactly when this value changes. -/
def currentRef (s : NavSt) : Option Nat := (getCurrent s).map (fun e => e.objId)

/-- The `canGoBack` computed signal. -/
def canGoBack (s : NavSt) : Bool := 0 < s.idx

/-- The `canGoForward` computed signal. -/
def canGoForward (s : NavSt) : Bool := s.idx < s.entries.length - 1

/-- The internal synchronization effect (`effect` at the end of
`createHashNavigation`): after any signal write, if the hash of
`_currentURL` differs from the hash of the current entry, `_currentURL`
is set to the current entry's URL. -/
def applySync (s : NavSt) : NavSt :=
  match getCurrent s with
  | some e => if getHash s.curURL ≠ getHash e.url then { s with curURL := e.url } else s
  | none => s

/-- `replaceHistoryEntry(fullUrl, newState)` at the current index:
`window.history.replaceState` (which also rewrites `location.href`),
then `updateEntryState` — a spread that produces a *new* entry object. -/
def replaceCurrentState (fullUrl : Url) (o : StateObj) (s : NavSt) : NavSt :=
  { s with
    loc := fullUrl
    hostState := JVal.obj o
    hostCalls := s.hostCalls ++ [HostCall.replace (JVal.obj o) fullUrl]
    entries :=
      match s.entries[s.idx]? with
      | some e => s.entries.set s.idx { e with state := JVal.obj o, objId := s.gen }
      | none => s.entries
    gen := s.gen + 1 }

/-- The push branch shared by `navigate` of both iterations: build the
destination entry (note `index` receives the *pre-truncation* length
`_entries.value.length`), call `history.pushState`, truncate the forward
branch when `_currentIndex < length - 1`, append, and move the index to the
end.  `mkEntry` is the `createHistoryEntry` of the corresponding helpers
iteration. -/
def navigatePushWith (mkEntry : Nat → Url → JVal → Nat → Entry × Nat)
    (h : String) (optState : Option StateObj) (s : NavSt) : NavSt :=
  let fullUrl : Url := ⟨s.loc.base, "/" ++ h⟩
  let pre := s.entries.length
  let p := mkEntry s.gen fullUrl (optStateToJVal optState) pre
  let pushed := optStateOrNull optState
  let base := if s.idx < pre - 1 then s.entries.take (s.idx + 1) else s.entries
  let entries' := base ++ [p.1]
  applySync
    { s with
      loc := fullUrl
      hostState := pushed
      hostCalls := s.hostCalls ++ [HostCall.push pushed fullUrl]
      entries := entries'
      idx := entries'.length - 1
      curURL := fullUrl
      gen := p.2 }

/-- `navigate(hash, options)` of the `part_006` iteration.  Returns `none`
when `currentEntry.value` is `undefined` (reading `.hash` of it would throw
a `TypeError`); this situation is unreachable as long as the index stays in
bounds. -/
def navigate (h : String) (optState : Option StateObj) (s : NavSt) :
    Option NavSt :=
  match getCurrent s with
  | none => none
  | some cur =>
    if cur.hash ≠ h then some (navigatePushWith createHistoryEntry h optState s)
    else
      match optState with
      | some o =>
        if cur.state ≠ JVal.obj o then
          some (applySync (replaceCurrentState ⟨s.loc.base, "/" ++ h⟩ o s))
        else some s
      | none => some s

/-- `back()` of the `part_006` iteration.  Note it moves `_currentIndex` to
`prevEntry.value.index` — the *stored* `index` field of the previous entry —
rather than to `_currentIndex - 1`. -/
def back (s : NavSt) : NavSt :=
  let prev? := if 0 < s.idx then s.entries[s.idx - 1]? else none
  match prev? with
  | none => { s with hostCalls := s.hostCalls ++ [HostCall.goBack] }
  | some p =>
    applySync
      { s with
        hostCalls := s.hostCalls ++ [HostCall.goBack]
        idx := p.index
        curURL := p.url }

/-- `forward()` of the `part_006` iteration (this one uses
`_currentIndex + 1`). -/
def forward (s : NavSt) : NavSt :=
  if s.idx < s.entries.length - 1 then
    match s.entries[s.idx + 1]? with
    | some d =>
      applySync
        { s with
          hostCalls := s.hostCalls ++ [HostCall.goForward]
          idx := s.idx + 1
          curURL := d.url }
    | none => { s with hostCalls := s.hostCalls ++ [HostCall.goForward] }
  else { s with hostCalls := s.hostCalls ++ [HostCall.goForward] }

/-- `traverseTo(key, options)` of the `part_006` iteration.  The Boolean
result records whether a traversal was performed (`false` corresponds to
the early `return` on an unknown key). -/
def traverseTo (k : Nat) (optState : Option StateObj) (s : NavSt) :
    NavSt × Bool :=
  match jsFindIndex (fun e => decide (e.key = k)) s.entries with
  | none => (s, false)
  | some i =>
    match s.entries[i]? with
    | none => (s, false)
    | some dest =>
      let delta : Int := (i : Int) - (s.idx : Int)
      match optState with
      | some o =>
        let dest' : Entry := { dest with state := JVal.obj o, objId := s.gen }
        let s1 : NavSt :=
          { s with
            loc := dest.url
            hostState := JVal.obj o
            hostCalls := s.hostCalls ++ [HostCall.replace (JVal.obj o) dest.url]
            entries := s.entries.set i dest'
            gen := s.gen + 1 }
        (applySync
          { s1 with
            hostCalls := s1.hostCalls ++ [HostCall.go delta]
            idx := i
            curURL := dest'.url }, true)
      | none =>
        (applySync
          { s with
            hostCalls := s.hostCalls ++ [HostCall.go delta]
            idx := i
            curURL := dest.url }, true)

/-- The `hashchange` handler (`handleHashChange`) of the `part_006`
iteration: ignore the event when the new URL is the current entry's URL;
otherwise realign to a known entry by URL (updating its state on a
`JSON.stringify` mismatch) or synthesize a new entry with forward-branch
truncation. -/
def handleHashChange (newUrl : Url) (hostSt : JVal) (s : NavSt) : NavSt :=
  if (getCurrent s).map (fun e => e.url) = some newUrl then s
  else
    match jsFindIndex (fun e => decide (e.url = newUrl)) s.entries with
    | some i =>
      let s1 := { s with idx := i }
      match s1.entries[i]? with
      | some e =>
        if e.state ≠ hostSt then
          applySync
            { s1 with
              entries := s1.entries.set i { e with state := hostSt, objId := s1.gen }
              gen := s1.gen + 1 }
        else applySync s1
      | none => applySync s1
    | none =>
      let pre := s.entries.length
      let p := createHistoryEntry s.gen newUrl hostSt pre
      let base := if s.idx < pre - 1 then s.entries.take (s.idx + 1) else s.entries
      let entries' := base ++ [p.1]
      applySync { s with entries := entries', idx := entries'.length - 1, gen := p.2 }

/-- Delivery of a host fragment-change event: the browser has already
updated `location` and its per-entry state when the handler runs. -/
def deliverHashChange (newUrl : Url) (hostSt : JVal) (s : NavSt) : NavSt :=
  handleHashChange newUrl hostSt { s with loc := newUrl, hostState := hostSt }

/-- `createHashNavigation()` followed by `create()`: the signal
initialization builds one entry from `location.href`, and
`initializeFromLocation` then rebuilds the single entry, this time reading
`window.history.state`. -/
def initHashNavigation (loc : Url) (hostSt : JVal) : NavSt :=
  let pA := createHistoryEntry 0 loc JVal.undef 0
  let pB := createHistoryEntry pA.2 loc hostSt 0
  { loc := loc
    hostState := hostSt
    curURL := loc
    entries := [pB.1]
    idx := 0
    gen := pB.2
    hostCalls := [] }

/-- One operation on a created instance, as enumerated by the invariants
claim: programmatic navigation, traversal, and host fragment-change
notifications. -/
inductive Op where
  | nav : String → Option StateObj → Op
  | goB : Op
  | goF : Op
  | trav : Nat → Option StateObj → Op
  | change : Url → JVal → Op

/-- Apply one operation. -/
def stepOp : Op → NavSt → Option NavSt
  | Op.nav h st => navigate h st
  | Op.goB => fun s => some (back s)
  | Op.goF => fun s => some (forward s)
  | Op.trav k st => fun s => some (traverseTo k st s).1
  | Op.change u st => fun s => some (deliverHashChange u st s)

/-- Run a finite sequence of operations. -/
def runOps : List Op → NavSt → Option NavSt
  | [], s => some s
  | op :: ops, s => (stepOp op s).bind (runOps ops)

/-! ## The event-listener iteration and the router facade

`src/src/core/hashRouter.ts` (the `create`-based iteration) composes its
`create` with the event-listener-based `createHashNavigation` of
`src/src/core/hashNavigation.ts` and the named `helpers.ts`
(`createHistoryEntryN`).  Only the pieces reachable from `create` are
modelled: the initial signal state (the facade never calls the
navigation's own `create()`, so `initializeFromLocation` and the
`hashchange` listener are not involved), `navigate` (whose push branch
dispatches a `navigate` event to the listeners installed by
`subscribeToNavigationEvents`), and the state-replacement branch it
shares with the `part_006` iteration.  The internal `_navigations`
result map has no observable effect and is not tracked. -/

/-- `createHashNavigation()` of the named iteration, as the facade's
`create` sees it: one entry built from `location.href` with an `undefined`
state. -/
def initNavN (loc : Url) : NavSt :=
  let p := createHistoryEntryN 0 loc JVal.undef 0
  { loc := loc
    hostState := JVal.null
    curURL := loc
    entries := [p.1]
    idx := 0
    gen := p.2
    hostCalls := [] }

/-- `navigate(hash, options)` of the named iteration.  The Boolean records
whether `dispatchNavigateEvent()` ran (push branch only; state replacement
and the no-op branch dispatch nothing). -/
def navigateN (h : String) (optState : Option StateObj) (s : NavSt) :
    NavSt × Bool :=
  match getCurrent s with
  | none => (s, false)
  | some cur =>
    if cur.hash ≠ h then (navigatePushWith createHistoryEntryN h optState s, true)
    else
      match optState with
      | some o =>
        if cur.state ≠ JVal.obj o then
          (applySync (replaceCurrentState ⟨s.loc.base, "/" ++ h⟩ o s), false)
        else (s, false)
      | none => (s, false)

/-- `checkExistPage`: strip a leading `'#'` and test membership in the
configured route names. -/
def checkExistPage (routeNames : List String) (hash : String) : Bool :=
  let normalized := if jsStartsWithChar hash '#' then jsSlice1 hash else hash
  jsIncludes routeNames normalized

/-- Result of the facade's `create`: the final navigation state, how many
times the `onChange` callback fired, and the current entry's hash. -/
structure RouterCreateResult where
  nav : NavSt
  onChangeCount : Nat
  currentHash : String
deriving DecidableEq, Repr

/-- The facade's `create` (`createHashRouter` iteration with
`create`/`subscribe`): seed the fragment from `homeUrl` when it is empty,
build the navigation, fire the initial subscription callback (`onChange`
fires because `prevLocation` is still `null`), then silently correct an
unconfigured non-empty hash to the home route via
`replaceState({hash})` → `navigate`.  A `navigate` event dispatched during
that correction reaches `onChange` through `subscribeToNavigationEvents`
when the URL differs from the previous one. -/
def routerCreate (loc0 : Url) (homeUrl : String) (routeNames : List String) :
    RouterCreateResult :=
  let loc1 :=
    if jsUrlHashProp loc0 = "" ∧ homeUrl ≠ "" then
      setLocationHash loc0 ("#" ++ createHash homeUrl)
    else loc0
  let nav0 := initNavN loc1
  let prevUrl := (getCurrent nav0).map (fun e => e.url)
  let curHash := ((getCurrent nav0).map (fun e => e.hash)).getD ""
  if curHash ≠ "" ∧ ¬ checkExistPage routeNames curHash ∧ homeUrl ≠ "" then
    if homeUrl ≠ "" ∧ homeUrl ≠ curHash then
      let r := navigateN homeUrl none nav0
      let newUrl : Option Url := (getCurrent r.1).map (fun e => e.url)
      let cnt := if r.2 then (if prevUrl = newUrl then 1 else 2) else 1
      ⟨r.1, cnt, ((getCurrent r.1).map (fun e => e.hash)).getD ""⟩
    else ⟨nav0, 1, curHash⟩
  else ⟨nav0, 1, curHash⟩

/-! ## Definitions written from the specification's words

These are deliberately *not* read off the source: they state what the
specification sentence under scrutiny describes, for comparison with the
source-derived definitions above. -/

/-- Modelled from the spec: route lookup where "the first matching pattern
in the supplied iteration order wins". -/
def getRouteItemSpecFirst {α : Type} (map : List (String × α)) (hash : String) :
    Option α :=
  (map.find? (fun kv => isRouteMatch kv.1 hash)).map (fun kv => kv.2)

/-- Modelled from the spec: "the URL's fragment with only its leading `'/'`
delimiter removed (`'/'` when the fragment is empty)". -/
def specLeadingSlashHash (frag : String) : String :=
  if frag = "" then "/"
  else if jsStartsWithChar frag '/' then jsSlice1 frag
  else frag

/-- Removal of the first `'/'` of a fragment, wherever it occurs — the
behaviour the amended hash claim describes. -/
def fragWithFirstSlashRemoved : List Char → List Char
  | [] => []
  | c :: cs => if c = '/' then cs else c :: fragWithFirstSlashRemoved cs

/-- The amended hash function: the fragment with its first `'/'` removed,
or `'/'` when the result is empty. -/
def amendedFragHash (frag : String) : String :=
  let r := fragWithFirstSlashRemoved frag.data
  if r.isEmpty then "/" else ⟨r⟩

/-! ## Concrete instances used by claim evaluations and witnesses -/

/-- A fresh browser location with an empty fragment. -/
def navExampleLoc : Url := ⟨"http://app.test/", ""⟩

/-- A freshly created `part_006` navigation instance. -/
def navInit : NavSt := initHashNavigation navExampleLoc JVal.null

/-- The operation sequence that leaves a stale stored `index` on an entry
(the `navigate "d"` step truncates the forward branch but stamps the new
entry with the pre-truncation length 3) and then lets `back()` consume it. -/
def branchBugOps : List Op :=
  [Op.nav "b" none, Op.nav "c" none, Op.goB, Op.goB,
   Op.nav "d" none, Op.nav "e" none]

/-- Concrete run for the bounds-invariant evaluation: the six operations of
`branchBugOps` followed by one more `back()`. -/
def staleIndexRun : Option NavSt := runOps (branchBugOps ++ [Op.goB]) navInit

/-- State after the six operations of `branchBugOps`: index 2 of 3 entries,
`canGoBack` holds, and the middle entry carries the stale stored index 3. -/
def staleIndexMid : Option NavSt := runOps branchBugOps navInit

/-- A one-entry state used to instantiate the hypothesis-bearing claims. -/
def witnessEntry : Entry :=
  ⟨⟨"http://app.test/", "/a"⟩, 0, 1, 0, true, JVal.null, "a", 2⟩

/-- A small concrete navigation state whose current entry is
`witnessEntry`. -/
def witnessState : NavSt :=
  ⟨⟨"http://app.test/", "/a"⟩, JVal.null, ⟨"http://app.test/", "/a"⟩,
   [witnessEntry], 0, 3, []⟩

/-- Two immediate `navigate ""` calls with the same state, starting from a
fresh instance: entry count goes 1 → 2 → 3 and the second call changes the
current entry object (a subscriber callback fires). -/
def repeatNavRun : Option (Nat × Nat × Bool) :=
  (navigate "" (some []) navInit).bind (fun s1 =>
    (navigate "" (some []) s1).map (fun s2 =>
      (s1.entries.length, s2.entries.length,
       decide (currentRef s2 = currentRef s1))))

/-- Both patterns of this map match the path `"a/b"`. -/
def overlappingRoutes : List (String × Nat) := [("a/:x", 0), ("a/b", 1)]

/-- A state with a distinct current URL and two later entries sharing one
URL, used to instantiate the C10 theorem. -/
def dupUrlState : NavSt :=
  ⟨⟨"http://app.test/", "/a"⟩, JVal.null, ⟨"http://app.test/", "/a"⟩,
   [⟨⟨"http://app.test/", "/a"⟩, 0, 1, 0, true, JVal.null, "a", 2⟩,
    ⟨⟨"http://app.test/", "/b"⟩, 3, 4, 1, true, JVal.null, "b", 5⟩,
    ⟨⟨"http://app.test/", "/b"⟩, 6, 7, 2, true, JVal.null, "b", 8⟩],
   0, 9, []⟩

/-! ## Supporting lemmas -/

theorem jsFindIndex_eq_none {α : Type} (p : α → Bool) (l : List α)
    (h : ∀ x ∈ l, p x = false) : jsFindIndex p l = none := by
  induction l with
  | nil => rfl
  | cons x xs ih =>
    have hx : p x = false := h x (by simp)
    have hxs := ih (fun y hy => h y (by simp [hy]))
    simp [jsFindIndex, hx, hxs]

theorem jsFindIndex_found {α : Type} (p : α → Bool) (l : List α) (i : Nat)
    (h : jsFindIndex p l = some i) : ∃ x, l[i]? = some x ∧ p x = true := by
  induction l generalizing i with
  | nil => simp [jsFindIndex] at h
  | cons a as ih =>
    rw [jsFindIndex] at h
    by_cases ha : p a
    · rw [if_pos ha] at h
      cases h
      exact ⟨a, by simp, ha⟩
    · rw [if_neg ha] at h
      rcases Option.map_eq_some'.mp h with ⟨k, hk, hik⟩
      rcases ih k hk with ⟨x, hx, hpx⟩
      refine ⟨x, ?_, hpx⟩
      rw [← hik]
      simpa using hx

theorem jsFindIndex_min {α : Type} (p : α → Bool) (l : List α) (i : Nat)
    (h : jsFindIndex p l = some i) :
    ∀ j, j < i → ∀ x, l[j]? = some x → p x = false := by
  induction l generalizing i with
  | nil => simp [jsFindIndex] at h
  | cons a as ih =>
    rw [jsFindIndex] at h
    by_cases ha : p a
    · rw [if_pos ha] at h
      cases h
      intro j hj
      omega
    · rw [if_neg ha] at h
      rcases Option.map_eq_some'.mp h with ⟨k, hk, hik⟩
      intro j hj x hx
      cases j with
      | zero =>
        have hxa : a = x := by simpa using hx
        subst hxa
        simpa using ha
      | succ j' =>
        exact ih k hk j' (by omega) x (by simpa using hx)

theorem jsFindIndex_isSome_of_found {α : Type} (p : α → Bool) (l : List α)
    (j : Nat) (x : α) (hx : l[j]? = some x) (hp : p x = true) :
    (jsFindIndex p l).isSome := by
  induction l generalizing j with
  | nil => simp at hx
  | cons a as ih =>
    rw [jsFindIndex]
    by_cases ha : p a
    · simp [ha]
    · rw [if_neg ha]
      cases j with
      | zero =>
        have hxa : a = x := by simpa using hx
        subst hxa
        exact absurd hp (by simpa using ha)
      | succ j' =>
        have := ih j' (by simpa using hx)
        simpa using this

theorem applySync_entries (s : NavSt) : (applySync s).entries = s.entries := by
  unfold applySync
  rcases h : getCurrent s with _ | e
  · rfl
  · dsimp only
    split <;> rfl

theorem applySync_idx (s : NavSt) : (applySync s).idx = s.idx := by
  unfold applySync
  rcases h : getCurrent s with _ | e
  · rfl
  · dsimp only
    split <;> rfl

theorem applySync_getCurrent (s : NavSt) :
    getCurrent (applySync s) = getCurrent s := by
  unfold getCurrent
  rw [applySync_entries, applySync_idx]

theorem removeFirstCharList_eq_fragRemoved (l : List Char) :
    removeFirstCharList '/' l = fragWithFirstSlashRemoved l := by
  induction l with
  | nil => rfl
  | cons c cs ih => simp [removeFirstCharList, fragWithFirstSlashRemoved, ih]

theorem getHash_eq_amendedFragHash (u : Url) :
    getHash u = amendedFragHash u.frag := by
  unfold getHash amendedFragHash jsUrlHashProp
  by_cases hf : u.frag = ""
  · rw [if_pos hf, hf]
    rfl
  · rw [if_neg hf]
    have hslice : jsSlice1 ("#" ++ u.frag) = ⟨u.frag.data⟩ := rfl
    rw [hslice]
    show (if (⟨removeFirstCharList '/' u.frag.data⟩ : String) = "" then "/"
          else ⟨removeFirstCharList '/' u.frag.data⟩) = _
    rw [removeFirstCharList_eq_fragRemoved]
    rcases hr : fragWithFirstSlashRemoved u.frag.data with _ | ⟨c, cs⟩
    · rfl
    · rw [if_neg (by intro hc; exact absurd (congrArg String.data hc) (by simp))]
      rfl

theorem getHash_pushForm (b h : String) (hh : h ≠ "") :
    getHash ⟨b, "/" ++ h⟩ = h := by
  rw [getHash_eq_amendedFragHash]
  show amendedFragHash ("/" ++ h) = h
  unfold amendedFragHash
  have hr : fragWithFirstSlashRemoved ("/" ++ h).data = h.data := by
    show fragWithFirstSlashRemoved ('/' :: h.data) = h.data
    simp [fragWithFirstSlashRemoved]
  rw [hr]
  have hne : h.data.isEmpty = false := by
    rcases hd : h.data with _ | _
    · exact absurd (String.ext (show h.data = "".data from hd)) hh
    · rfl
  rw [if_neg (by simp [hne])]

theorem find?_append_cases {α : Type} (p : α → Bool) (l₁ l₂ : List α) :
    (l₁ ++ l₂).find? p =
      match l₁.find? p with
      | some x => some x
      | none => l₂.find? p := by
  induction l₁ with
  | nil => simp
  | cons x xs ih =>
    by_cases hx : p x
    · simp [List.find?_cons, hx]
    · simp [List.find?_cons, hx, ih]

theorem getRouteItem_foldl {α : Type} (hash : String) (m : List (String × α))
    (acc : Option α) :
    m.foldl (fun a kv => if isRouteMatch kv.1 hash then some kv.2 else a) acc =
      match m.reverse.find? (fun kv => isRouteMatch kv.1 hash) with
      | some kv => some kv.2
      | none => acc := by
  induction m generalizing acc with
  | nil => simp
  | cons kv m ih =>
    rw [List.foldl_cons, ih, List.reverse_cons, find?_append_cases]
    rcases hfind : m.reverse.find? (fun kv => isRouteMatch kv.1 hash) with _ | kv'
    · rw [hfind]
      by_cases hm : isRouteMatch kv.1 hash
      · simp [List.find?_cons, hm]
      · simp [List.find?_cons, hm]
    · rw [hfind]

theorem navigatePushWith_getCurrent (mk : Nat → Url → JVal → Nat → Entry × Nat)
    (h : String) (optState : Option StateObj) (s : NavSt) :
    getCurrent (navigatePushWith mk h optState s) =
      some (mk s.gen ⟨s.loc.base, "/" ++ h⟩ (optStateToJVal optState)
        s.entries.length).1 := by
  unfold navigatePushWith
  rw [applySync_getCurrent]
  unfold getCurrent
  dsimp only
  rw [show ∀ (l : List Entry) (a : Entry), (l ++ [a]).length - 1 = l.length by
        intro l a; simp]
  exact List.getElem?_concat_length _ _

/-- Shape of any successful `navigate(h, {state: o})` with a non-empty hash
argument: the current entry of the result has hash `h` and state `o`.
(The push branch creates such an entry, the replace branch rewrites the
current one, and the no-op branch requires it already.) -/
theorem navigate_some_shape (h : String) (o : StateObj) (s s' : NavSt)
    (hh : h ≠ "") (heq : navigate h (some o) s = some s') :
    ∃ e', getCurrent s' = some e' ∧ e'.hash = h ∧ e'.state = JVal.obj o := by
  rcases hcur : getCurrent s with _ | cur
  · rw [navigate, hcur] at heq
    cases heq
  · rw [navigate, hcur] at heq
    dsimp only at heq
    by_cases hhash : cur.hash ≠ h
    · rw [if_pos hhash] at heq
      cases heq
      refine ⟨_, navigatePushWith_getCurrent createHistoryEntry h (some o) s, ?_, ?_⟩
      · exact getHash_pushForm s.loc.base h hh
      · show (if optStateToJVal (some o) = JVal.undef then JVal.obj []
              else optStateToJVal (some o)) = JVal.obj o
        simp [optStateToJVal]
    · rw [if_neg hhash] at heq
      have hcurhash : cur.hash = h := not_not.mp hhash
      by_cases hst : cur.state ≠ JVal.obj o
      · rw [if_pos hst] at heq
        cases heq
        rw [applySync_getCurrent]
        have hcur' : s.entries[s.idx]? = some cur := hcur
        have hlt : s.idx < s.entries.length := (List.getElem?_eq_some.mp hcur').1
        refine ⟨{ cur with state := JVal.obj o, objId := s.gen }, ?_, hcurhash, rfl⟩
        show (replaceCurrentState _ o s).entries[(replaceCurrentState _ o s).idx]? = _
        unfold replaceCurrentState
        dsimp only
        rw [hcur']
        exact List.getElem?_set_eq_of_lt _ hlt
      · rw [if_neg hst] at heq
        cases heq
        exact ⟨cur, hcur, hcurhash, not_not.mp hst⟩

/-! ## Claim theorems -/

/-- C1: the claimed store invariant `0 ≤ currentIndex < entries.length` is
violated by the code.  After `navigate "b"`, `navigate "c"`, `back`, `back`,
`navigate "d"` (which truncates the forward branch but stamps the new entry
with the pre-truncation length 3), `navigate "e"`, the final `back()` moves
`_currentIndex` to the *stored* `index` field of the previous entry — 3 —
while only 3 entries exist, so `currentIndex < length` fails and
`currentEntry` is `undefined`.  (`canGoBack`/`canGoForward` still equal
their defining formulas, and the list is non-empty; it is exactly the index
bound that breaks.) -/
theorem back_staleIndex_breaks_bounds :
    staleIndexRun.map
        (fun s => (s.entries.length, s.idx, canGoBack s, canGoForward s)) =
      some (3, 3, true, false) := by decide

/-- C4: `back()` then `forward()` after `branchBugOps` does *not* return to
the previous current entry.  `back()` jumps to the stale stored index 3
(out of bounds), `forward()` then sees `canGoForward` false and leaves the
model unchanged, so afterwards there is no current entry at all — in
particular none with the key and state current before `back()`. -/
theorem back_forward_drops_current :
    staleIndexMid.map
        (fun s =>
          (canGoBack s, (getCurrent s).isSome,
           (getCurrent (forward (back s))).isSome)) =
      some (true, true, false) := by decide

/-- C2: delivering a host fragment-change notification whose URL equals the
current entry's URL leaves the entry list, the current index (hence every
entry's state) unchanged; the current entry object is also unchanged, so
the subscription effect invokes no callback. -/
theorem hashChange_currentUrl_noop (s : NavSt) (e : Entry) (hst : JVal)
    (hcur : getCurrent s = some e) :
    (deliverHashChange e.url hst s).entries = s.entries ∧
    (deliverHashChange e.url hst s).idx = s.idx ∧
    currentRef (deliverHashChange e.url hst s) = currentRef s := by
  unfold deliverHashChange handleHashChange
  rw [if_pos (by
    rw [show getCurrent { s with loc := e.url, hostState := hst } = some e
          from hcur]
    rfl)]
  exact ⟨rfl, rfl, rfl⟩

/-- Witness for C2 at a concrete state. -/
theorem hashChange_currentUrl_noop_witness :
    (deliverHashChange witnessEntry.url JVal.null witnessState).entries =
        witnessState.entries ∧
    (deliverHashChange witnessEntry.url JVal.null witnessState).idx =
        witnessState.idx ∧
    currentRef (deliverHashChange witnessEntry.url JVal.null witnessState) =
        currentRef witnessState :=
  hashChange_currentUrl_noop witnessState witnessEntry JVal.null (by decide)

/-- C3 counterexample: `navigate(h, {state: s})` twice with identical
arguments is *not* always free of a second append.  With `h = ""` the
stored entry hash is normalised to `"/"`, which is never equal to the
argument `""`, so both calls take the push branch: the second call appends
a third entry and moves the current entry object (notifying subscribers). -/
theorem navigate_emptyHash_not_idempotent : repeatNavRun = some (2, 3, false) := by
  decide

/-- C3 (amended): for every *non-empty* hash `h` and state `o`, a second
immediate `navigate h {state: o}` returns the state of the first call
unchanged — no entry is appended, no entry or index changes, and the
current entry object is identical, so no subscriber callback fires. -/
theorem navigate_repeat_noop (h : String) (o : StateObj) (s s' : NavSt)
    (hh : h ≠ "") (heq : navigate h (some o) s = some s') :
    navigate h (some o) s' = some s' := by
  rcases navigate_some_shape h o s s' hh heq with ⟨e', hcur, hhash, hstate⟩
  rw [navigate, hcur]
  dsimp only
  rw [if_neg (by simp [hhash]), if_neg (by simp [hstate])]

/-- Witness for C3's amended theorem: run `navigate "b"` once from a fresh
instance and check the repetition law there. -/
theorem navigate_repeat_noop_witness :
    navigate "b" (some [("k", "v")])
        ((navigate "b" (some [("k", "v")]) navInit).getD navInit) =
      some ((navigate "b" (some [("k", "v")]) navInit).getD navInit) := by
  have h1 : navigate "b" (some [("k", "v")]) navInit =
      some ((navigate "b" (some [("k", "v")]) navInit).getD navInit) := by
    decide
  exact navigate_repeat_noop "b" [("k", "v")] navInit _ (by decide) h1

/-- C5 counterexample: with two matching patterns supplied in order, the
lookup returns the item of the *last* matching pattern (`"a/b"` ↦ 1), not
the first one (`"a/:x"` ↦ 0) that the claim promises. -/
theorem getRouteItem_not_firstMatch :
    getRouteItem overlappingRoutes "a/b" = some 1 ∧
    getRouteItemSpecFirst overlappingRoutes "a/b" = some 0 ∧
    getRouteItem overlappingRoutes "a/b" ≠
      getRouteItemSpecFirst overlappingRoutes "a/b" := by decide

/-- C5 (amended): for every supplied pattern map and path, the route lookup
returns the item associated with the *last* matching pattern in the
supplied iteration order (the first match of the reversed list). -/
theorem getRouteItem_lastMatch {α : Type} (m : List (String × α))
    (hash : String) :
    getRouteItem m hash =
      (m.reverse.find? (fun kv => isRouteMatch kv.1 hash)).map
        (fun kv => kv.2) := by
  rw [getRouteItem, getRouteItem_foldl]
  rcases hfind : m.reverse.find? (fun kv => isRouteMatch kv.1 hash) with _ | kv
  · rw [hfind]
    rfl
  · rw [hfind]
    rfl

/-- C6: `traverseTo` with a key that belongs to no stored entry returns the
no-op failure signal and leaves the state — entries, states, current index
and the host-call log — completely unchanged. -/
theorem traverseTo_unknownKey_noop (s : NavSt) (k : Nat)
    (o : Option StateObj) (hk : ∀ e ∈ s.entries, e.key ≠ k) :
    traverseTo k o s = (s, false) := by
  unfold traverseTo
  rw [jsFindIndex_eq_none _ _ (fun e he => by simpa using hk e he)]

/-- Witness for C6 at a concrete state and unknown key. -/
theorem traverseTo_unknownKey_noop_witness :
    traverseTo 99 none witnessState = (witnessState, false) :=
  traverseTo_unknownKey_noop witnessState 99 none (by decide)

/-- C7: `create({homeHash: "home", routeNames: ["home", "about"]})` on a
location with an empty fragment seeds the fragment to `#/home`, builds a
single-entry store whose current hash is `"home"`, and fires exactly one
subscriber notification (the initial subscription callback; the corrective
branch is not taken because `"home"` is a configured route). -/
theorem routerCreate_home_example :
    (routerCreate ⟨"http://app.test/", ""⟩ "home" ["home", "about"]).currentHash
        = "home" ∧
    (routerCreate ⟨"http://app.test/", ""⟩ "home" ["home", "about"]).onChangeCount
        = 1 ∧
    (routerCreate ⟨"http://app.test/", ""⟩ "home" ["home", "about"]).nav.entries.length
        = 1 := by decide

/-- C8: the worked matcher examples.  Among the supplied patterns only
`"item/:name/info/:id"` matches `"item/metric/info/222"` and the lookup
selects it; parameter extraction yields `{name: "metric", id: "222"}`;
for `"profile/:id"` against `"profile/222?tab=settings"` parameter
extraction strips the query string and yields `{id: "222"}`, and query
extraction yields `{tab: "settings"}`. -/
theorem routeMatcher_examples :
    isRouteMatch "item/:name/info/:id" "item/metric/info/222" = true ∧
    isRouteMatch "home" "item/metric/info/222" = false ∧
    isRouteMatch "profile/:id" "item/metric/info/222" = false ∧
    getRouteItem (getRouteMap ["home", "profile/:id", "item/:name/info/:id"])
        "item/metric/info/222" = some "item/:name/info/:id" ∧
    getParamsFromUrl "item/:name/info/:id" "item/metric/info/222" =
      [("name", "metric"), ("id", "222")] ∧
    getParamsFromUrl "profile/:id" "profile/222?tab=settings" =
      [("id", "222")] ∧
    parseQueryParams "profile/222?tab=settings" = [("tab", "settings")] := by
  decide

/-- C9 counterexample: for a fragment without a leading delimiter but with
an interior `'/'`, the entry hash is *not* the fragment with only a leading
`'/'` removed: `getHash` removes the first `'/'` wherever it occurs, so the
fragment `"a/b"` yields hash `"ab"` while the claim demands `"a/b"`. -/
theorem getHash_not_leadingSlashOnly :
    getHash ⟨"http://app.test/", "a/b"⟩ = "ab" ∧
    specLeadingSlashHash "a/b" = "a/b" ∧
    (createHistoryEntry 0 ⟨"http://app.test/", "a/b"⟩ JVal.undef 0).1.hash ≠
      specLeadingSlashHash "a/b" := by decide

/-- C9 (amended): the hash of an entry created from a URL is computed by the
pure function `getHash` and equals the URL's fragment with its *first*
`'/'` — wherever it occurs — removed, or `'/'` when the result is empty. -/
theorem createHistoryEntry_hash_spec (g : Nat) (u : Url) (st : JVal)
    (i : Nat) :
    (createHistoryEntry g u st i).1.hash = getHash u ∧
    getHash u = amendedFragHash u.frag :=
  ⟨rfl, getHash_eq_amendedFragHash u⟩

/-- C10: when a host fragment-change notification's URL differs from the
current entry's URL but occurs at several stored positions, the handler
realigns the current index to the *first* match in list order: afterwards
the current entry has the notified URL and every entry at a smaller
position does not. -/
theorem hashChange_knownUrl_firstMatch (s : NavSt) (c ei ej : Entry)
    (u : Url) (hst : JVal) (i j : Nat)
    (hcur : getCurrent s = some c) (hne : c.url ≠ u) (hij : i < j)
    (hi : s.entries[i]? = some ei) (hj : s.entries[j]? = some ej)
    (hiu : ei.url = u) (hju : ej.url = u) :
    ((deliverHashChange u hst s).entries[(deliverHashChange u hst s).idx]?).map
        (fun e => e.url) = some u ∧
    ∀ m, m < (deliverHashChange u hst s).idx →
      ∀ em, s.entries[m]? = some em → em.url ≠ u := by
  unfold deliverHashChange handleHashChange
  rw [if_neg (by
    rw [show getCurrent { s with loc := u, hostState := hst } = some c
          from hcur]
    simpa using hne)]
  dsimp only
  have hsome : (jsFindIndex (fun e => decide (e.url = u)) s.entries).isSome :=
    jsFindIndex_isSome_of_found _ _ i ei hi (by simp [hiu])
  rcases hfind : jsFindIndex (fun e => decide (e.url = u)) s.entries with _ | f
  · rw [hfind] at hsome
    simp at hsome
  · rw [hfind]
    dsimp only
    rcases jsFindIndex_found _ _ f hfind with ⟨ef, hef, hpef⟩
    have hefu : ef.url = u := of_decide_eq_true hpef
    have hflen : f < s.entries.length := (List.getElem?_eq_some.mp hef).1
    rw [hef]
    dsimp only
    have hmin : ∀ m, m < f → ∀ em, s.entries[m]? = some em → em.url ≠ u := by
      intro m hm em hem
      have := jsFindIndex_min _ _ f hfind m hm em hem
      simpa using this
    split
    · constructor
      · rw [applySync_entries, applySync_idx]
        dsimp only
        rw [List.getElem?_set_eq_of_lt _ hflen]
        simpa using hefu
      · intro m hm em hem
        rw [applySync_idx] at hm
        exact hmin m hm em hem
    · constructor
      · rw [applySync_entries, applySync_idx]
        dsimp only
        rw [hef]
        simpa using hefu
      · intro m hm em hem
        rw [applySync_idx] at hm
        exact hmin m hm em hem

/-- Witness for C10: entries at positions 1 and 2 share the URL `#/b`;
after delivering `#/b`, the current entry is the one at position 1. -/
theorem hashChange_knownUrl_firstMatch_witness :
    ((deliverHashChange ⟨"http://app.test/", "/b"⟩ JVal.null dupUrlState).entries[
        (deliverHashChange ⟨"http://app.test/", "/b"⟩ JVal.null dupUrlState).idx]?).map
        (fun e => e.url) = some ⟨"http://app.test/", "/b"⟩ :=
  (hashChange_knownUrl_firstMatch dupUrlState
    ⟨⟨"http://app.test/", "/a"⟩, 0, 1, 0, true, JVal.null, "a", 2⟩
    ⟨⟨"http://app.test/", "/b"⟩, 3, 4, 1, true, JVal.null, "b", 5⟩
    ⟨⟨"http://app.test/", "/b"⟩, 6, 7, 2, true, JVal.null, "b", 8⟩
    ⟨"http://app.test/", "/b"⟩ JVal.null 1 2
    (by decide) (by decide) (by decide) (by decide) (by decide)
    (by decide) (by decide)).1

end HashNav
